import Mathlib

/-!
Shallow embedding of the nflow configuration persistence layer:
the localStorage-backed profile store (`LocalStorageService` in
src/services/config/localStorage.ts), the debounced autosave coalescer
(the `debounce` utility in the same file), and the in-memory state
projector (`configurationReducer` and the provider operations in
src/services/config/configStore.tsx).

Timestamps are modelled as natural numbers; each call site of
`new Date().toISOString()` / `Date.now()` in the source becomes an
explicit timestamp parameter of the embedded operation, one per call
site, since the source reads the clock separately at each site.
Setting values (`any` in the source) are modelled as strings; a
settings bag (a JS object) is an association list whose lookup takes
the first matching key, and JS object spread is modelled by
`mergeSettings`.  The two localStorage slots are modelled by `Slot`:
`absent` (key never written / removed), `corrupt` (JSON.parse throws),
or `stored`.  Every `setItem`/`removeItem` is additionally recorded in
an event log so that write ordering is observable.
-/

set_option autoImplicit false

namespace NFlow

abbrev Timestamp := Nat

abbrev Value := String

abbrev Settings := List (String × Value)

/-- First-match lookup in a settings bag, as JS property access on an
object whose keys are unique (first occurrence wins for generality). -/
def lookupS : Settings → String → Option Value
  | [], _ => none
  | (k2, v) :: rest, k => if k2 = k then some v else lookupS rest k

/-- JS object spread `\x7b...old, ...upd\x7d`: keys of `old` keep their
position with the value overridden by `upd` when present; keys only in
`upd` are appended. -/
def mergeSettings (old upd : Settings) : Settings :=
  old.map (fun p =>
    match lookupS upd p.1 with
    | some v => (p.1, v)
    | none => p)
  ++ upd.filter (fun q => (lookupS old q.1).isNone)

/-- ConfigurationProfile from src/types/config.ts. -/
structure ConfigurationProfile where
  id : String
  name : String
  settings : Settings
  createdAt : Timestamp
  updatedAt : Timestamp
  version : Nat
deriving Repr, DecidableEq

/-- NewProfileRequest from src/types/config.ts; `copyFromCurrent` is
optional, `none` modelling an absent field. -/
structure NewProfileRequest where
  name : String
  copyFromCurrent : Option Bool
deriving Repr, DecidableEq

/-- ConfigurationUpdate from src/types/config.ts. -/
structure ConfigurationUpdate where
  settings : Option Settings
  name : Option String
deriving Repr, DecidableEq

/-- A localStorage slot: absent key, undecodable contents, or a decoded
value. -/
inductive Slot (α : Type) where
  | absent
  | corrupt
  | stored (a : α)
deriving Repr, DecidableEq

/-- A durable write event (setItem / removeItem on one of the two keys). -/
inductive StoreEvent where
  | setConfig (p : ConfigurationProfile)
  | setProfiles (l : List ConfigurationProfile)
  | removeConfig
deriving Repr, DecidableEq

/-- The durable localStorage state: the current-profile slot
(`nexusflow-config`), the profile-list slot (`nexusflow-profiles`), and
the log of writes performed so far. -/
structure Store where
  config : Slot ConfigurationProfile
  profiles : Slot (List ConfigurationProfile)
  log : List StoreEvent
deriving Repr, DecidableEq

/-- Refresh the `updatedAt` stamp, as the object spread
`\x7b...profile, updatedAt: new Date().toISOString()\x7d`. -/
def stamp (now : Timestamp) (p : ConfigurationProfile) : ConfigurationProfile :=
  { p with updatedAt := now }

/-- LocalStorageService.saveCurrentProfile (localStorage.ts lines 39-52):
stamps `updatedAt` and overwrites the current-pointer slot. -/
def saveCurrentProfile (now : Timestamp) (p : ConfigurationProfile) (s : Store) : Store :=
  { s with
    config := Slot.stored (stamp now p)
    log := s.log ++ [StoreEvent.setConfig (stamp now p)] }

/-- LocalStorageService.loadCurrentProfile (lines 65-79): `null` when the
slot is absent, `null` (after catching) when it is corrupt. -/
def loadCurrentProfile (s : Store) : Option ConfigurationProfile :=
  match s.config with
  | Slot.stored p => some p
  | _ => none

/-- LocalStorageService.saveProfiles (lines 84-91): full replacement
write of the list slot. -/
def saveProfiles (l : List ConfigurationProfile) (s : Store) : Store :=
  { s with
    profiles := Slot.stored l
    log := s.log ++ [StoreEvent.setProfiles l] }

/-- LocalStorageService.loadProfiles (lines 96-110): empty list when the
slot is absent or corrupt. -/
def loadProfiles (s : Store) : List ConfigurationProfile :=
  match s.profiles with
  | Slot.stored l => l
  | _ => []

/-- `localStorage.removeItem(CONFIG_STORAGE_KEY)` (line 196). -/
def removeCurrentProfileSlot (s : Store) : Store :=
  { s with
    config := Slot.absent
    log := s.log ++ [StoreEvent.removeConfig] }

/-- The id template of createProfile (line 116):
`profile_$\x7bDate.now()\x7d_$\x7brandom suffix\x7d`, with the clock
reading and the random suffix as explicit inputs. -/
def mkProfileId (t : Timestamp) (r : String) : String :=
  "profile_" ++ toString t ++ "_" ++ r

/-- LocalStorageService.createProfile (lines 115-140).  `t` and `r` feed
the id template, `now` is the `new Date()` read for the timestamps, and
`nowCur` is the separate clock read inside `saveCurrentProfile` when the
new profile also becomes current (empty prior list). -/
def createProfile (t : Timestamp) (r : String) (now nowCur : Timestamp)
    (req : NewProfileRequest) (s : Store) : ConfigurationProfile × Store :=
  let id := mkProfileId t r
  let settings : Settings :=
    if req.copyFromCurrent ≠ some false then
      (Option.map ConfigurationProfile.settings (loadCurrentProfile s)).getD []
    else []
  let newProfile : ConfigurationProfile :=
    { id := id
      name := req.name
      settings := settings
      createdAt := now
      updatedAt := now
      version := 1 }
  let existingProfiles := loadProfiles s
  let s1 := saveProfiles (existingProfiles ++ [newProfile]) s
  let s2 :=
    if existingProfiles.length = 0 then saveCurrentProfile nowCur newProfile s1 else s1
  (newProfile, s2)

/-- The merged profile of updateProfile (lines 153-160): spread of the
old profile, then the update fields, then the stamped `updatedAt`, and
the shallow settings merge. -/
def applyUpdate (now : Timestamp) (old : ConfigurationProfile)
    (u : ConfigurationUpdate) : ConfigurationProfile :=
  { id := old.id
    name := u.name.getD old.name
    settings :=
      match u.settings with
      | some us => mergeSettings old.settings us
      | none => old.settings
    createdAt := old.createdAt
    updatedAt := now
    version := old.version }

/-- `profiles.findIndex` + in-place replacement of the first entry with
the given id (lines 147-162): `none` when the id is absent. -/
def updateInList (now : Timestamp) (profileId : String) (u : ConfigurationUpdate) :
    List ConfigurationProfile → Option (ConfigurationProfile × List ConfigurationProfile)
  | [] => none
  | p :: rest =>
    if p.id = profileId then
      some (applyUpdate now p u, applyUpdate now p u :: rest)
    else
      match updateInList now profileId u rest with
      | some (up, rest2) => some (up, p :: rest2)
      | none => none

/-- LocalStorageService.updateProfile (lines 145-172).  `nowList` is the
clock read stamping the list entry (line 156); `nowPtr` is the separate
clock read inside the duplicate `saveCurrentProfile` write (line 168). -/
def updateProfile (nowList nowPtr : Timestamp) (profileId : String)
    (u : ConfigurationUpdate) (s : Store) : Option ConfigurationProfile × Store :=
  let profiles := loadProfiles s
  match updateInList nowList profileId u profiles with
  | none => (none, s)
  | some (updated, profiles2) =>
    let s1 := saveProfiles profiles2 s
    let s2 :=
      match loadCurrentProfile s1 with
      | some cp => if cp.id = profileId then saveCurrentProfile nowPtr updated s1 else s1
      | none => s1
    (some updated, s2)

/-- LocalStorageService.deleteProfile (lines 177-201).  `nowRepoint` is
the clock read inside the repointing `saveCurrentProfile` (line 193). -/
def deleteProfile (nowRepoint : Timestamp) (profileId : String) (s : Store) :
    Bool × Store :=
  let profiles := loadProfiles s
  if profiles.any (fun p => p.id = profileId) then
    let profiles2 := profiles.filter (fun p => p.id ≠ profileId)
    let s1 := saveProfiles profiles2 s
    let s2 :=
      match loadCurrentProfile s1 with
      | some cp =>
        if cp.id = profileId then
          match profiles2 with
          | q :: _ => saveCurrentProfile nowRepoint q s1
          | [] => removeCurrentProfileSlot s1
        else s1
      | none => s1
    (true, s2)
  else (false, s)

/-- LocalStorageService.getProfileSummaries source record (lines 206-214). -/
structure ConfigurationProfileSummary where
  id : String
  name : String
  updatedAt : Timestamp
deriving Repr, DecidableEq

/-- LocalStorageService.getProfileSummaries (lines 206-214). -/
def getProfileSummaries (s : Store) : List ConfigurationProfileSummary :=
  (loadProfiles s).map (fun p => { id := p.id, name := p.name, updatedAt := p.updatedAt })

/-- ConfigurationState from src/types/config.ts, the state of the
projector in configStore.tsx. -/
structure ConfigurationState where
  currentProfile : Option ConfigurationProfile
  profiles : List ConfigurationProfile
  loading : Bool
  error : Option String
deriving Repr, DecidableEq

/-- ConfigurationAction from configStore.tsx (lines 11-21). -/
inductive ConfigurationAction where
  | loadStart
  | loadSuccess (currentProfile : Option ConfigurationProfile)
      (profiles : List ConfigurationProfile)
  | loadError (msg : String)
  | saveStart
  | saveSuccess (p : ConfigurationProfile)
  | saveError (msg : String)
  | createProfileSuccess (p : ConfigurationProfile)
  | switchProfileSuccess (p : ConfigurationProfile)
  | deleteProfileSuccess (id : String)
  | updateSetting (key : String) (value : Value)
deriving Repr, DecidableEq

/-- configurationReducer from configStore.tsx (lines 32-92); `now` is
the `new Date()` read inside the UPDATE_SETTING branch (line 86). -/
def configurationReducer (now : Timestamp) (state : ConfigurationState)
    (action : ConfigurationAction) : ConfigurationState :=
  match action with
  | ConfigurationAction.loadStart => { state with loading := true, error := none }
  | ConfigurationAction.loadSuccess cp ps =>
    { state with loading := false, currentProfile := cp, profiles := ps }
  | ConfigurationAction.loadError msg => { state with loading := false, error := some msg }
  | ConfigurationAction.saveStart => { state with loading := true }
  | ConfigurationAction.saveSuccess p =>
    { state with
      loading := false
      currentProfile := some p
      profiles := state.profiles.map (fun q => if q.id = p.id then p else q) }
  | ConfigurationAction.saveError msg => { state with loading := false, error := some msg }
  | ConfigurationAction.createProfileSuccess p =>
    { state with
      profiles := state.profiles ++ [p]
      currentProfile := if state.profiles.length = 0 then some p else state.currentProfile }
  | ConfigurationAction.switchProfileSuccess p => { state with currentProfile := some p }
  | ConfigurationAction.deleteProfileSuccess pid =>
    { state with
      profiles := state.profiles.filter (fun q => q.id ≠ pid)
      currentProfile :=
        match state.currentProfile with
        | some cp => if cp.id = pid then none else some cp
        | none => none }
  | ConfigurationAction.updateSetting key value =>
    match state.currentProfile with
    | none => state
    | some cp =>
      { state with
        currentProfile := some
          { cp with
            settings := mergeSettings cp.settings [(key, value)]
            updatedAt := now } }

/-- The provider's switchProfile (configStore.tsx lines 176-204): finds
the target in the stored list, throws "not found" when absent; otherwise
flushes the in-memory current profile to the pointer slot (line 187),
then writes the target there (line 191), and dispatches
SWITCH_PROFILE_SUCCESS.  `now1` and `now2` are the two separate clock
reads inside the two `saveCurrentProfile` calls. -/
def switchProfile (now1 now2 : Timestamp) (profileId : String)
    (st : ConfigurationState) (s : Store) : Except String ConfigurationState × Store :=
  let profiles := loadProfiles s
  match profiles.find? (fun p => p.id = profileId) with
  | none => (Except.error ("Profile with id " ++ profileId ++ " not found"), s)
  | some target =>
    let s1 :=
      match st.currentProfile with
      | some cp => saveCurrentProfile now1 cp s
      | none => s
    let s2 := saveCurrentProfile now2 target s1
    (Except.ok (configurationReducer now2 st (ConfigurationAction.switchProfileSuccess target)), s2)

/-- The debounce utility (localStorage.ts lines 7-17), modelled as a
step function over the single pending-timer cell: a call at time `t`
first lets a pending timer whose fire time has already passed fire
(recording its write), then cancels any still-pending timer and
schedules a new one `D` ms out carrying the new argument.  Returns the
chronological write list and the final pending timer. -/
def runFrom {α : Type} (D : Nat) (pending : Option (Nat × α)) :
    List (Nat × α) → List (Nat × α) × Option (Nat × α)
  | [] => ([], pending)
  | (t, a) :: rest =>
    match pending with
    | some (ft, pa) =>
      if ft ≤ t then
        let r := runFrom D (some (t + D, a)) rest
        ((ft, pa) :: r.1, r.2)
      else runFrom D (some (t + D, a)) rest
    | none => runFrom D (some (t + D, a)) rest

/-- Run a trace of timed invocations of the debounced function starting
with no pending timer. -/
def runCalls {α : Type} (D : Nat) (calls : List (Nat × α)) :
    List (Nat × α) × Option (Nat × α) :=
  runFrom D none calls

/-- All writes the debounced function has performed by time `T`: the
writes fired during the trace plus the final pending write when its fire
time is at or before `T`. -/
def debounceWrites {α : Type} (D : Nat) (calls : List (Nat × α)) (T : Nat) :
    List (Nat × α) :=
  let r := runCalls D calls
  match r.2 with
  | some (ft, a) => if ft ≤ T then r.1 ++ [(ft, a)] else r.1
  | none => r.1

/-- The debounce delay of debouncedSaveCurrentProfile (line 34). -/
def debounceDelay : Nat := 5000

/-! Concrete sample data shared by witnesses and counterexamples. -/

/-- Sample profile with id "a". -/
def pA : ConfigurationProfile :=
  { id := "a", name := "A", settings := [("theme", "dark")]
    createdAt := 0, updatedAt := 0, version := 1 }

/-- Sample profile with id "b". -/
def pB : ConfigurationProfile :=
  { id := "b", name := "B", settings := [("k", "1")]
    createdAt := 0, updatedAt := 0, version := 1 }

/-- Sample store: pA is current, the list holds pA then pB. -/
def sampleStore : Store :=
  { config := Slot.stored pA, profiles := Slot.stored [pA, pB], log := [] }

/-- Sample in-memory projector state matching sampleStore. -/
def sampleState : ConfigurationState :=
  { currentProfile := some pA, profiles := [pA, pB], loading := false, error := none }

/-- Sample profile whose id already has the generated shape. -/
def pCollide : ConfigurationProfile :=
  { id := "profile_0_abc", name := "X", settings := []
    createdAt := 0, updatedAt := 0, version := 1 }

/-- Store whose list already contains pCollide. -/
def storeCollide : Store :=
  { config := Slot.absent, profiles := Slot.stored [pCollide], log := [] }

/-! Basic slot-independence lemmas of the store operations. -/

theorem loadProfiles_saveProfiles (l : List ConfigurationProfile) (s : Store) :
    loadProfiles (saveProfiles l s) = l := rfl

theorem loadCurrentProfile_saveProfiles (l : List ConfigurationProfile) (s : Store) :
    loadCurrentProfile (saveProfiles l s) = loadCurrentProfile s := rfl

theorem loadProfiles_saveCurrentProfile (now : Timestamp) (p : ConfigurationProfile)
    (s : Store) : loadProfiles (saveCurrentProfile now p s) = loadProfiles s := rfl

theorem loadCurrentProfile_saveCurrentProfile (now : Timestamp)
    (p : ConfigurationProfile) (s : Store) :
    loadCurrentProfile (saveCurrentProfile now p s) = some (stamp now p) := rfl

theorem loadProfiles_removeCurrentProfileSlot (s : Store) :
    loadProfiles (removeCurrentProfileSlot s) = loadProfiles s := rfl

/-- Claim C2: saving a profile and then loading the current profile
returns the profile with `updatedAt` refreshed to the save-time clock
value and every other field (id, name, settings, createdAt, version)
unchanged. -/
theorem save_then_load_roundtrip (now : Timestamp) (p : ConfigurationProfile) (s : Store) :
    loadCurrentProfile (saveCurrentProfile now p s) = some
      { id := p.id, name := p.name, settings := p.settings
        createdAt := p.createdAt, updatedAt := now, version := p.version } := rfl

/-- Claim C8: loadCurrentProfile returns `none` on an absent or corrupt
current-pointer slot, loadProfiles returns `[]` on an absent or corrupt
list slot, and both loads are total functions whose only other outcome
is the decoded slot contents (no error ever propagates). -/
theorem load_degrades_silently (cs : Slot ConfigurationProfile)
    (ps : Slot (List ConfigurationProfile)) (lg : List StoreEvent) :
    loadCurrentProfile { config := Slot.absent, profiles := ps, log := lg } = none ∧
    loadCurrentProfile { config := Slot.corrupt, profiles := ps, log := lg } = none ∧
    loadProfiles { config := cs, profiles := Slot.absent, log := lg } = [] ∧
    loadProfiles { config := cs, profiles := Slot.corrupt, log := lg } = [] ∧
    (∀ s : Store, loadCurrentProfile s = none ∨
      ∃ p, s.config = Slot.stored p ∧ loadCurrentProfile s = some p) ∧
    (∀ s : Store, loadProfiles s = [] ∨
      ∃ l, s.profiles = Slot.stored l ∧ loadProfiles s = l) := by
  refine ⟨rfl, rfl, rfl, rfl, ?_, ?_⟩
  · intro s
    rcases s with ⟨c, p, l⟩
    cases c <;> simp [loadCurrentProfile]
  · intro s
    rcases s with ⟨c, p, l⟩
    cases p <;> simp [loadProfiles]

/-- Claim C9: the DELETE_PROFILE_SUCCESS(id) transition removes every
entry matching id from the profiles list, and sets currentProfile to
`none` whenever the current profile's id equals the deleted id
(unconditionally, regardless of the remaining profiles), leaving it
unchanged otherwise. -/
theorem reducer_delete_spec (now : Timestamp) (st : ConfigurationState) (pid : String) :
    (configurationReducer now st (ConfigurationAction.deleteProfileSuccess pid)).profiles =
      st.profiles.filter (fun p => p.id ≠ pid) ∧
    (∀ cp, st.currentProfile = some cp → cp.id = pid →
      (configurationReducer now st
        (ConfigurationAction.deleteProfileSuccess pid)).currentProfile = none) ∧
    (∀ cp, st.currentProfile = some cp → cp.id ≠ pid →
      (configurationReducer now st
        (ConfigurationAction.deleteProfileSuccess pid)).currentProfile = some cp) ∧
    (st.currentProfile = none →
      (configurationReducer now st
        (ConfigurationAction.deleteProfileSuccess pid)).currentProfile = none) := by
  refine ⟨rfl, ?_, ?_, ?_⟩
  · intro cp hcp hid
    simp [configurationReducer, hcp, hid]
  · intro cp hcp hid
    simp [configurationReducer, hcp, hid]
  · intro h
    simp [configurationReducer, h]

/-- Witness for C9 at a concrete state: deleting the current profile's
id nulls the in-memory current profile even though pB remains. -/
theorem reducer_delete_spec_witness :
    (configurationReducer 0 sampleState
      (ConfigurationAction.deleteProfileSuccess "a")).currentProfile = none :=
  (reducer_delete_spec 0 sampleState "a").2.1 pA rfl rfl

/-- Claim C10: the LOAD_ERROR and SAVE_ERROR transitions leave
currentProfile and profiles exactly as they were. -/
theorem reducer_error_frame (now : Timestamp) (st : ConfigurationState) (m : String) :
    (configurationReducer now st (ConfigurationAction.loadError m)).currentProfile =
      st.currentProfile ∧
    (configurationReducer now st (ConfigurationAction.loadError m)).profiles =
      st.profiles ∧
    (configurationReducer now st (ConfigurationAction.saveError m)).currentProfile =
      st.currentProfile ∧
    (configurationReducer now st (ConfigurationAction.saveError m)).profiles =
      st.profiles :=
  ⟨rfl, rfl, rfl, rfl⟩

/-- When every later call arrives strictly within `D` ms of the
previous one, no pending timer ever fires during the trace: the run
produces no writes and leaves exactly the last call pending, scheduled
`D` ms after the last invocation. -/
theorem runFrom_quiet {α : Type} (D : Nat) (rest : List (Nat × α)) :
    ∀ (t : Nat) (a : α),
      List.Chain' (fun p q => p.1 ≤ q.1 ∧ q.1 < p.1 + D) ((t, a) :: rest) →
      runFrom D (some (t + D, a)) rest =
        ([], some ((rest.getLastD (t, a)).1 + D, (rest.getLastD (t, a)).2)) := by
  induction rest with
  | nil =>
    intro t a _
    simp [runFrom, List.getLastD]
  | cons hd tl ih =>
    intro t a h
    obtain ⟨t2, a2⟩ := hd
    rw [List.chain'_cons] at h
    obtain ⟨⟨h1, h2⟩, h3⟩ := h
    have hlt : ¬ (t + D ≤ t2) := by omega
    show (if t + D ≤ t2 then _ else runFrom D (some (t2 + D, a2)) tl) = _
    rw [if_neg hlt, ih t2 a2 h3, List.getLastD_cons]

/-- Claim C1: for a nonempty trace of invocations of the debounced save
in which consecutive invocations are separated by less than the 5000 ms
debounce delay, no durable write occurs at any time strictly before
5000 ms have elapsed since the last invocation, and at that point
exactly one write occurs, carrying the argument of the last invocation
(all earlier arguments are never written). -/
theorem autosave_coalesces {α : Type} (t0 : Nat) (a0 : α) (rest : List (Nat × α))
    (hchain : List.Chain' (fun p q => p.1 ≤ q.1 ∧ q.1 < p.1 + debounceDelay)
      ((t0, a0) :: rest)) :
    (∀ T, T < (rest.getLastD (t0, a0)).1 + debounceDelay →
      debounceWrites debounceDelay ((t0, a0) :: rest) T = []) ∧
    (∀ T, (rest.getLastD (t0, a0)).1 + debounceDelay ≤ T →
      debounceWrites debounceDelay ((t0, a0) :: rest) T =
        [((rest.getLastD (t0, a0)).1 + debounceDelay, (rest.getLastD (t0, a0)).2)]) := by
  have hrun : runCalls debounceDelay ((t0, a0) :: rest) =
      ([], some ((rest.getLastD (t0, a0)).1 + debounceDelay,
        (rest.getLastD (t0, a0)).2)) := by
    show runFrom debounceDelay none ((t0, a0) :: rest) = _
    show runFrom debounceDelay (some (t0 + debounceDelay, a0)) rest = _
    exact runFrom_quiet debounceDelay rest t0 a0 hchain
  constructor
  · intro T hT
    have hnle : ¬ ((rest.getLastD (t0, a0)).1 + debounceDelay ≤ T) := by omega
    simp only [debounceWrites, hrun]
    rw [if_neg hnle]
  · intro T hT
    simp only [debounceWrites, hrun]
    rw [if_pos hT, List.nil_append]

/-- Witness for C1: two calls at 0 ms and 3000 ms (gap under 5000 ms)
yield no write at 7999 ms and exactly the last payload at 8000 ms. -/
theorem autosave_coalesces_witness :
    debounceWrites debounceDelay [((0 : Nat), (1 : Nat)), (3000, 2)] 7999 = [] ∧
    debounceWrites debounceDelay [((0 : Nat), (1 : Nat)), (3000, 2)] 8000 =
      [(8000, 2)] := by
  have h := autosave_coalesces (α := Nat) 0 1 [(3000, 2)]
    (List.chain'_cons.mpr
      ⟨⟨by norm_num, by norm_num [debounceDelay]⟩, List.chain'_singleton _⟩)
  exact ⟨h.1 7999 (by norm_num [debounceDelay, List.getLastD]),
    h.2 8000 (by norm_num [debounceDelay, List.getLastD])⟩

/-! Lookup lemmas for the shallow settings merge. -/

theorem lookupS_append_left (xs ys : Settings) (k : String) (v : Value)
    (h : lookupS xs k = some v) : lookupS (xs ++ ys) k = some v := by
  induction xs with
  | nil => simp [lookupS] at h
  | cons hd tl ih =>
    obtain ⟨k1, w⟩ := hd
    by_cases hk : k1 = k
    · simp only [lookupS, if_pos hk] at h
      simp only [List.cons_append, lookupS, if_pos hk]
      exact h
    · simp only [lookupS, if_neg hk] at h
      simp only [List.cons_append, lookupS, if_neg hk]
      exact ih h

theorem lookupS_append_right (xs ys : Settings) (k : String)
    (h : lookupS xs k = none) : lookupS (xs ++ ys) k = lookupS ys k := by
  induction xs with
  | nil => simp
  | cons hd tl ih =>
    obtain ⟨k1, w⟩ := hd
    by_cases hk : k1 = k
    · simp [lookupS, hk] at h
    · simp only [lookupS, if_neg hk] at h
      simp only [List.cons_append, lookupS, if_neg hk]
      exact ih h

/-- The per-entry override that the spread in `mergeSettings` applies
with a singleton update. -/
def overrideWith (k : String) (v : Value) (p : String × Value) : String × Value :=
  match lookupS [(k, v)] p.1 with
  | some w => (p.1, w)
  | none => p

theorem overrideWith_pos (k : String) (v : Value) (k1 : String) (w1 : Value)
    (h : k = k1) : overrideWith k v (k1, w1) = (k1, v) := by
  simp [overrideWith, lookupS, h]

theorem overrideWith_neg (k : String) (v : Value) (k1 : String) (w1 : Value)
    (h : ¬ k = k1) : overrideWith k v (k1, w1) = (k1, w1) := by
  simp [overrideWith, lookupS, h]

/-- `mergeSettings` with a singleton update, written with the named
override function. -/
theorem mergeSettings_single (old : Settings) (k : String) (v : Value) :
    mergeSettings old [(k, v)] =
      old.map (overrideWith k v) ++
        ([(k, v)] : Settings).filter (fun q => (lookupS old q.1).isNone) := rfl

/-- The spread-override part of `mergeSettings` with a singleton update:
every key keeps its position, the value at `k` is replaced by `v`. -/
theorem lookupS_map_override (old : Settings) (k : String) (v : Value) (k2 : String) :
    lookupS (old.map (overrideWith k v)) k2 =
      match lookupS old k2 with
      | none => none
      | some w => some (if k = k2 then v else w) := by
  induction old with
  | nil => simp [lookupS]
  | cons hd tl ih =>
    obtain ⟨k1, w1⟩ := hd
    by_cases h1 : k = k1
    · rw [List.map_cons, overrideWith_pos k v k1 w1 h1]
      by_cases h2 : k1 = k2
      · have hk2 : k = k2 := h1.trans h2
        simp [lookupS, h2, hk2]
      · simp only [lookupS, if_neg h2]
        exact ih
    · rw [List.map_cons, overrideWith_neg k v k1 w1 h1]
      by_cases h2 : k1 = k2
      · have hk2 : ¬ k = k2 := fun h => h1 (h.trans h2.symm)
        simp only [lookupS, if_pos h2]
        rw [if_neg hk2]
      · simp only [lookupS, if_neg h2]
        exact ih

/-- The appended-new-keys part of `mergeSettings` with a singleton
update, when `k` is not a key of `old`. -/
theorem lookupS_filter_single_none (old : Settings) (k : String) (v : Value)
    (k2 : String) (h : lookupS old k = none) :
    lookupS (([(k, v)] : Settings).filter (fun q => (lookupS old q.1).isNone)) k2 =
      lookupS [(k, v)] k2 := by
  simp [List.filter, h]

/-- The appended-new-keys part of `mergeSettings` with a singleton
update, when `k` is already a key of `old`. -/
theorem lookupS_filter_single_some (old : Settings) (k : String) (v : Value)
    (k2 : String) (w : Value) (h : lookupS old k = some w) :
    lookupS (([(k, v)] : Settings).filter (fun q => (lookupS old q.1).isNone)) k2 =
      none := by
  simp [List.filter, h, lookupS]

/-- Shallow merge with a singleton update overwrites the updated key. -/
theorem lookupS_merge_self (old : Settings) (k : String) (v : Value) :
    lookupS (mergeSettings old [(k, v)]) k = some v := by
  rw [mergeSettings_single]
  cases hold : lookupS old k with
  | none =>
    have hmap : lookupS (old.map (overrideWith k v)) k = none := by
      rw [lookupS_map_override, hold]
    rw [lookupS_append_right _ _ _ hmap, lookupS_filter_single_none _ _ _ _ hold]
    simp [lookupS]
  | some w =>
    have hmap : lookupS (old.map (overrideWith k v)) k = some v := by
      rw [lookupS_map_override, hold]
      simp
    exact lookupS_append_left _ _ _ _ hmap

/-- Shallow merge with a singleton update preserves every other key. -/
theorem lookupS_merge_other (old : Settings) (k : String) (v : Value)
    (k2 : String) (hne : k2 ≠ k) :
    lookupS (mergeSettings old [(k, v)]) k2 = lookupS old k2 := by
  have hkk2 : k ≠ k2 := fun h => hne h.symm
  rw [mergeSettings_single]
  cases hold2 : lookupS old k2 with
  | some w =>
    have hmap : lookupS (old.map (overrideWith k v)) k2 = some w := by
      rw [lookupS_map_override, hold2]
      simp [if_neg hkk2]
    rw [lookupS_append_left _ _ _ _ hmap]
  | none =>
    have hmap : lookupS (old.map (overrideWith k v)) k2 = none := by
      rw [lookupS_map_override, hold2]
    rw [lookupS_append_right _ _ _ hmap]
    cases hold : lookupS old k with
    | none =>
      rw [lookupS_filter_single_none _ _ _ _ hold]
      simp [lookupS, if_neg hkk2]
    | some w =>
      rw [lookupS_filter_single_some _ _ _ _ _ hold]

/-! Lemmas about updateInList and updateProfile. -/

theorem updateInList_not_found (now : Timestamp) (pid : String)
    (u : ConfigurationUpdate) :
    ∀ l : List ConfigurationProfile, (∀ p ∈ l, p.id ≠ pid) →
      updateInList now pid u l = none := by
  intro l
  induction l with
  | nil => intro _; rfl
  | cons hd tl ih =>
    intro h
    have hhd : hd.id ≠ pid := h hd (List.mem_cons_self hd tl)
    show (if hd.id = pid then _ else _) = none
    rw [if_neg hhd, ih (fun p hp => h p (List.mem_cons_of_mem hd hp))]

theorem updateInList_found (now : Timestamp) (pid : String)
    (u : ConfigurationUpdate) :
    ∀ (l : List ConfigurationProfile) (old : ConfigurationProfile),
      l.find? (fun p => p.id = pid) = some old →
      ∃ l2, updateInList now pid u l = some (applyUpdate now old u, l2) ∧
        l2.find? (fun p => p.id = pid) = some (applyUpdate now old u) ∧
        (∀ p ∈ l2, p.id ≠ pid → p ∈ l) := by
  intro l
  induction l with
  | nil => intro old h; simp at h
  | cons hd tl ih =>
    intro old h
    by_cases hhd : hd.id = pid
    · have hold : old = hd := by
        rw [List.find?_cons_of_pos _ (by simp [hhd])] at h
        exact (Option.some.injEq _ _ ▸ h).symm
      subst hold
      refine ⟨applyUpdate now old u :: tl, ?_, ?_, ?_⟩
      · show (if old.id = pid then _ else _) = _
        rw [if_pos hhd]
      · have hid : (applyUpdate now old u).id = pid := hhd
        rw [List.find?_cons_of_pos _ (by simp [hid])]
      · intro p hp hne
        rcases List.mem_cons.mp hp with h1 | h1
        · exact absurd (h1 ▸ hhd) hne
        · exact List.mem_cons_of_mem _ h1
    · have h2 : tl.find? (fun p => p.id = pid) = some old := by
        rwa [List.find?_cons_of_neg _ (by simp [hhd])] at h
      obtain ⟨l2, ha, hb, hc⟩ := ih old h2
      refine ⟨hd :: l2, ?_, ?_, ?_⟩
      · show (if hd.id = pid then _ else _) = _
        rw [if_neg hhd, ha]
      · rw [List.find?_cons_of_neg _ (by simp [hhd])]
        exact hb
      · intro p hp hne
        rcases List.mem_cons.mp hp with h1 | h1
        · exact h1 ▸ List.mem_cons_self hd tl
        · exact List.mem_cons_of_mem _ (hc p h1 hne)

theorem updateInList_mem (now : Timestamp) (pid : String) (u : ConfigurationUpdate) :
    ∀ (l l2 : List ConfigurationProfile) (up : ConfigurationProfile),
      updateInList now pid u l = some (up, l2) →
      ∀ p ∈ l2, p.id ≠ pid → p ∈ l := by
  intro l
  induction l with
  | nil => intro l2 up h; exact absurd h (by simp [updateInList])
  | cons hd tl ih =>
    intro l2 up h p hp hne
    by_cases hhd : hd.id = pid
    · rw [show updateInList now pid u (hd :: tl) =
          (if hd.id = pid then some (applyUpdate now hd u, applyUpdate now hd u :: tl)
            else match updateInList now pid u tl with
              | some (up2, rest2) => some (up2, hd :: rest2)
              | none => none) from rfl, if_pos hhd] at h
      simp only [Option.some.injEq, Prod.mk.injEq] at h
      obtain ⟨_, hl2⟩ := h
      subst hl2
      rcases List.mem_cons.mp hp with h1 | h1
      · exact absurd (h1 ▸ hhd) hne
      · exact List.mem_cons_of_mem _ h1
    · rw [show updateInList now pid u (hd :: tl) =
          (if hd.id = pid then some (applyUpdate now hd u, applyUpdate now hd u :: tl)
            else match updateInList now pid u tl with
              | some (up2, rest2) => some (up2, hd :: rest2)
              | none => none) from rfl, if_neg hhd] at h
      cases hl : updateInList now pid u tl with
      | none => rw [hl] at h; exact absurd h (by simp)
      | some pr =>
        obtain ⟨u2, r2⟩ := pr
        rw [hl] at h
        simp only [Option.some.injEq, Prod.mk.injEq] at h
        obtain ⟨_, hl2⟩ := h
        subst hl2
        rcases List.mem_cons.mp hp with h1 | h1
        · exact h1 ▸ List.mem_cons_self hd tl
        · exact List.mem_cons_of_mem _ (ih r2 u2 hl p h1 hne)

/-- When the id is found, updateProfile leaves the list slot holding the
replaced list, whatever the current-pointer slot held. -/
theorem loadProfiles_updateProfile_found (n1 n2 : Timestamp) (pid : String)
    (u : ConfigurationUpdate) (s : Store) (up : ConfigurationProfile)
    (l2 : List ConfigurationProfile)
    (hl : updateInList n1 pid u (loadProfiles s) = some (up, l2)) :
    loadProfiles (updateProfile n1 n2 pid u s).2 = l2 := by
  simp only [updateProfile, hl]
  split <;> first | rfl | (split <;> rfl)

/-- Bundled behavior of updateProfile when the id is the first match in
the stored list. -/
theorem updateProfile_found (n1 n2 : Timestamp) (pid : String)
    (u : ConfigurationUpdate) (s : Store) (old : ConfigurationProfile)
    (hfind : (loadProfiles s).find? (fun p => p.id = pid) = some old) :
    (updateProfile n1 n2 pid u s).1 = some (applyUpdate n1 old u) ∧
    (loadProfiles (updateProfile n1 n2 pid u s).2).find? (fun p => p.id = pid) =
      some (applyUpdate n1 old u) ∧
    (∀ p ∈ loadProfiles (updateProfile n1 n2 pid u s).2, p.id ≠ pid →
      p ∈ loadProfiles s) ∧
    (∀ cp, loadCurrentProfile s = some cp → cp.id = pid →
      loadCurrentProfile (updateProfile n1 n2 pid u s).2 =
        some (stamp n2 (applyUpdate n1 old u))) := by
  obtain ⟨l2, ha, hb, hc⟩ := updateInList_found n1 pid u (loadProfiles s) old hfind
  have hload := loadProfiles_updateProfile_found n1 n2 pid u s _ l2 ha
  refine ⟨?_, ?_, ?_, ?_⟩
  · simp only [updateProfile, ha]
  · rw [hload]
    exact hb
  · rw [hload]
    exact fun p hp hne => hc p hp hne
  · intro cp hcur hcpid
    have hcur2 : loadCurrentProfile (saveProfiles l2 s) = some cp := by
      rw [loadCurrentProfile_saveProfiles]
      exact hcur
    simp only [updateProfile, ha, hcur2, if_pos hcpid]
    rw [loadCurrentProfile_saveCurrentProfile]

/-- Claim C5: updateProfile with update \x7bsettings: \x7bk: v\x7d\x7d on an id
present in the stored list performs a shallow merge: key k is
overwritten with v and every pre-existing settings key other than k
keeps its old value; on an absent id it returns null and leaves the
whole store unchanged. -/
theorem updateProfile_shallow_merge (nowList nowPtr : Timestamp) (pid k : String)
    (v : Value) (s : Store) :
    (∀ old, (loadProfiles s).find? (fun p => p.id = pid) = some old →
      ∃ up, (updateProfile nowList nowPtr pid
          { settings := some [(k, v)], name := none } s).1 = some up ∧
        lookupS up.settings k = some v ∧
        (∀ k2, k2 ≠ k → lookupS up.settings k2 = lookupS old.settings k2)) ∧
    ((∀ p ∈ loadProfiles s, p.id ≠ pid) →
      updateProfile nowList nowPtr pid
        { settings := some [(k, v)], name := none } s = (none, s)) := by
  constructor
  · intro old hfind
    obtain ⟨h1, _, _, _⟩ :=
      updateProfile_found nowList nowPtr pid
        { settings := some [(k, v)], name := none } s old hfind
    refine ⟨applyUpdate nowList old { settings := some [(k, v)], name := none },
      h1, ?_, ?_⟩
    · exact lookupS_merge_self old.settings k v
    · intro k2 hk2
      exact lookupS_merge_other old.settings k v k2 hk2
  · intro h
    have hnone := updateInList_not_found nowList pid
      { settings := some [(k, v)], name := none } (loadProfiles s) h
    simp [updateProfile, hnone]

/-- Witness for C5 at concrete data: updating key "k2" of pB overwrites
"k2", preserves "k", and updating a missing id is a no-op returning
none. -/
theorem updateProfile_shallow_merge_witness :
    (∃ up, (updateProfile 3 3 "b" { settings := some [("k2", "9")], name := none }
        sampleStore).1 = some up ∧
      lookupS up.settings "k2" = some "9" ∧
      lookupS up.settings "k" = some "1") ∧
    updateProfile 3 3 "missing" { settings := some [("k2", "9")], name := none }
      sampleStore = (none, sampleStore) := by
  constructor
  · obtain ⟨up, h1, h2, h3⟩ :=
      (updateProfile_shallow_merge 3 3 "b" "k2" "9" sampleStore).1 pB (by decide)
    refine ⟨up, h1, h2, ?_⟩
    rw [h3 "k" (by decide)]
    decide
  · exact (updateProfile_shallow_merge 3 3 "missing" "k2" "9" sampleStore).2
      (by decide)

/-- Counterexample to C6 as stated: with distinct clock readings at the
two stamping sites (list stamp at 1, pointer stamp at 2), the profile
stored in the current-pointer slot differs from the updated list entry
in its updatedAt field. -/
theorem updateProfile_dup_counterexample :
    (loadProfiles (updateProfile 1 2 "a"
        { settings := some [("k", "1")], name := none } sampleStore).2).find?
      (fun p => p.id = "a") ≠
    loadCurrentProfile (updateProfile 1 2 "a"
        { settings := some [("k", "1")], name := none } sampleStore).2 := by
  decide

/-- Claim C6 (amended): after updateProfile on the id held in the
current-pointer slot, the pointer slot holds the updated entry restamped
at the pointer-write clock reading: it agrees with the list entry on
every field except possibly updatedAt, and is value-identical to it
(every field) whenever the two clock readings coincide. -/
theorem updateProfile_current_dup (now1 now2 : Timestamp) (pid : String)
    (u : ConfigurationUpdate) (s : Store) (cp old : ConfigurationProfile)
    (hcur : loadCurrentProfile s = some cp) (hid : cp.id = pid)
    (hfind : (loadProfiles s).find? (fun p => p.id = pid) = some old) :
    (updateProfile now1 now2 pid u s).1 = some (applyUpdate now1 old u) ∧
    (loadProfiles (updateProfile now1 now2 pid u s).2).find? (fun p => p.id = pid) =
      some (applyUpdate now1 old u) ∧
    loadCurrentProfile (updateProfile now1 now2 pid u s).2 =
      some (stamp now2 (applyUpdate now1 old u)) ∧
    (stamp now2 (applyUpdate now1 old u)).id = (applyUpdate now1 old u).id ∧
    (stamp now2 (applyUpdate now1 old u)).name = (applyUpdate now1 old u).name ∧
    (stamp now2 (applyUpdate now1 old u)).settings = (applyUpdate now1 old u).settings ∧
    (stamp now2 (applyUpdate now1 old u)).createdAt = (applyUpdate now1 old u).createdAt ∧
    (stamp now2 (applyUpdate now1 old u)).version = (applyUpdate now1 old u).version ∧
    (now1 = now2 →
      loadCurrentProfile (updateProfile now1 now2 pid u s).2 =
        some (applyUpdate now1 old u)) := by
  obtain ⟨h1, h2, _, h4⟩ := updateProfile_found now1 now2 pid u s old hfind
  refine ⟨h1, h2, h4 cp hcur hid, rfl, rfl, rfl, rfl, rfl, ?_⟩
  intro he
  rw [h4 cp hcur hid]
  subst he
  rfl

/-- Witness for C6 (amended) at concrete data with a single clock
instant: the pointer slot and the list entry hold the same value. -/
theorem updateProfile_current_dup_witness :
    loadCurrentProfile (updateProfile 7 7 "a"
        { settings := some [("k", "1")], name := none } sampleStore).2 =
      (updateProfile 7 7 "a"
        { settings := some [("k", "1")], name := none } sampleStore).1 := by
  obtain ⟨h1, _, _, _, _, _, _, _, h9⟩ :=
    updateProfile_current_dup 7 7 "a"
      { settings := some [("k", "1")], name := none } sampleStore pA pA
      (by decide) (by decide) (by decide)
  rw [h1, h9 rfl]

/-- Entries of the list produced by updateProfile whose id differs from
the updated id were already in the stored list before the call. -/
theorem updateProfile_frame (n1 n2 : Timestamp) (pid : String)
    (u : ConfigurationUpdate) (s : Store) :
    ∀ p ∈ loadProfiles (updateProfile n1 n2 pid u s).2, p.id ≠ pid →
      p ∈ loadProfiles s := by
  intro p hp hne
  cases hl : updateInList n1 pid u (loadProfiles s) with
  | none =>
    simp only [updateProfile, hl] at hp
    exact hp
  | some pr =>
    obtain ⟨up, l2⟩ := pr
    rw [loadProfiles_updateProfile_found n1 n2 pid u s up l2 hl] at hp
    exact updateInList_mem n1 pid u (loadProfiles s) l2 up hl p hp hne

/-- Counterexample to C7 as stated: when the clock reading and random
suffix reproduce an id already in the stored list, createProfile returns
a profile whose id collides with an existing entry (the code never
checks the list for collisions). -/
theorem createProfile_id_collision :
    ¬ (∀ p ∈ loadProfiles storeCollide,
        p.id ≠ (createProfile 0 "abc" 0 0 { name := "n", copyFromCurrent := none }
          storeCollide).1.id) := by
  intro h
  exact h pCollide (by decide) (by decide)

/-- Claim C7 (amended): createProfile returns a profile whose id is
built deterministically from the clock reading and random suffix; the id
is distinct from every stored id provided that string is not already
present; createdAt = updatedAt = now and version = 1; settings are the
current profile's settings when copyFromCurrent is not literally false,
else empty; the new profile is appended to the stored list; and a later
updateProfile targeting any id leaves every differently-identified list
entry exactly as it was (settings copied by value, no aliasing). -/
theorem createProfile_spec (t : Timestamp) (r : String) (now nowCur : Timestamp)
    (req : NewProfileRequest) (s : Store)
    (hfresh : ∀ p ∈ loadProfiles s, p.id ≠ mkProfileId t r) :
    (createProfile t r now nowCur req s).1.id = mkProfileId t r ∧
    (∀ p ∈ loadProfiles s, p.id ≠ (createProfile t r now nowCur req s).1.id) ∧
    (createProfile t r now nowCur req s).1.createdAt = now ∧
    (createProfile t r now nowCur req s).1.updatedAt = now ∧
    (createProfile t r now nowCur req s).1.version = 1 ∧
    (req.copyFromCurrent ≠ some false →
      (createProfile t r now nowCur req s).1.settings =
        ((loadCurrentProfile s).map ConfigurationProfile.settings).getD []) ∧
    (req.copyFromCurrent = some false →
      (createProfile t r now nowCur req s).1.settings = []) ∧
    loadProfiles (createProfile t r now nowCur req s).2 =
      loadProfiles s ++ [(createProfile t r now nowCur req s).1] ∧
    (∀ pid u n1 n2 p,
      p ∈ loadProfiles (updateProfile n1 n2 pid u
        (createProfile t r now nowCur req s).2).2 →
      p.id ≠ pid → p ∈ loadProfiles (createProfile t r now nowCur req s).2) := by
  refine ⟨rfl, fun p hp => hfresh p hp, rfl, rfl, rfl, ?_, ?_, ?_, ?_⟩
  · intro h
    simp only [createProfile]
    rw [if_pos h]
  · intro h
    simp only [createProfile]
    rw [if_neg (by simp [h])]
  · by_cases hlen : (loadProfiles s).length = 0
    · simp only [createProfile]
      rw [if_pos hlen, loadProfiles_saveCurrentProfile, loadProfiles_saveProfiles]
    · simp only [createProfile]
      rw [if_neg hlen, loadProfiles_saveProfiles]
  · intro pid u n1 n2 p hp hne
    exact updateProfile_frame n1 n2 pid u _ p hp hne

/-- Witness for C7 (amended) at concrete data: a fresh id against
sampleStore, settings copied by value from the current profile pA. -/
theorem createProfile_spec_witness :
    (createProfile 42 "xyz" 10 10 { name := "C", copyFromCurrent := none }
      sampleStore).1.id = "profile_42_xyz" ∧
    (createProfile 42 "xyz" 10 10 { name := "C", copyFromCurrent := none }
      sampleStore).1.settings = [("theme", "dark")] ∧
    (createProfile 42 "xyz" 10 10 { name := "C", copyFromCurrent := none }
      sampleStore).1.version = 1 := by
  obtain ⟨h1, _, _, _, h5, h6, _, _, _⟩ :=
    createProfile_spec 42 "xyz" 10 10 { name := "C", copyFromCurrent := none }
      sampleStore (by decide)
  refine ⟨by rw [h1]; rfl, ?_, h5⟩
  rw [h6 (by decide)]
  decide

/-- Claim C3: deleteProfile returns false and leaves the store untouched
when no entry has the id; otherwise it returns true, writes back the
list with every matching entry removed, and if the pointer slot held the
deleted id, repoints it to the first remaining entry (stamped at the
repoint clock reading) when one exists, or clears the slot entirely when
none remain; a pointer holding a different id is left alone. -/
theorem deleteProfile_spec (now : Timestamp) (pid : String) (s : Store) :
    ((∀ p ∈ loadProfiles s, p.id ≠ pid) → deleteProfile now pid s = (false, s)) ∧
    ((∃ p ∈ loadProfiles s, p.id = pid) →
      (deleteProfile now pid s).1 = true ∧
      loadProfiles (deleteProfile now pid s).2 =
        (loadProfiles s).filter (fun p => p.id ≠ pid) ∧
      (∀ cp, loadCurrentProfile s = some cp → cp.id = pid →
        (∀ q rest2, (loadProfiles s).filter (fun p => p.id ≠ pid) = q :: rest2 →
          (deleteProfile now pid s).2.config = Slot.stored (stamp now q)) ∧
        ((loadProfiles s).filter (fun p => p.id ≠ pid) = [] →
          (deleteProfile now pid s).2.config = Slot.absent)) ∧
      (∀ cp, loadCurrentProfile s = some cp → cp.id ≠ pid →
        (deleteProfile now pid s).2.config = s.config)) := by
  constructor
  · intro h
    have hany : (loadProfiles s).any (fun p => p.id = pid) = false := by
      rw [List.any_eq_false]
      intro p hp
      simpa using h p hp
    simp [deleteProfile, hany]
  · rintro ⟨q0, hq0mem, hq0id⟩
    have hany : (loadProfiles s).any (fun p => p.id = pid) = true := by
      rw [List.any_eq_true]
      exact ⟨q0, hq0mem, by simp [hq0id]⟩
    refine ⟨?_, ?_, ?_, ?_⟩
    · simp only [deleteProfile]
      rw [if_pos hany]
    · simp only [deleteProfile]
      rw [if_pos hany]
      split <;> first | rfl | (split <;> first | rfl | (split <;> rfl))
    · intro cp hcur hcpid
      constructor
      · intro q rest2 hfil
        simp only [deleteProfile]
        rw [if_pos hany]
        simp only [loadCurrentProfile_saveProfiles, hcur]
        rw [if_pos hcpid, hfil]
        rfl
      · intro hfil
        simp only [deleteProfile]
        rw [if_pos hany]
        simp only [loadCurrentProfile_saveProfiles, hcur]
        rw [if_pos hcpid, hfil]
        rfl
    · intro cp hcur hcpid
      simp only [deleteProfile]
      rw [if_pos hany]
      simp only [loadCurrentProfile_saveProfiles, hcur]
      rw [if_neg hcpid]
      rfl

/-- Witness for C3 at concrete data: deleting current profile pA returns
true, leaves only pB in the list, and repoints the current slot to pB
stamped at the repoint time. -/
theorem deleteProfile_spec_witness :
    (deleteProfile 5 "a" sampleStore).1 = true ∧
    loadProfiles (deleteProfile 5 "a" sampleStore).2 = [pB] ∧
    (deleteProfile 5 "a" sampleStore).2.config = Slot.stored (stamp 5 pB) := by
  obtain ⟨h1, h2, h3, _⟩ :=
    (deleteProfile_spec 5 "a" sampleStore).2 ⟨pA, by decide, by decide⟩
  refine ⟨h1, ?_, ?_⟩
  · rw [h2]
    decide
  · exact (h3 pA (by decide) (by decide)).1 pB [] (by decide)

/-- Claim C4: switchProfile fails with a not-found error and leaves the
durable store untouched when the id is absent; when the id is present
and the caller holds an in-memory current profile, it writes that
outgoing profile to the pointer slot first and then the target, in that
order, and the resulting in-memory state has the target as the current
profile. -/
theorem switchProfile_spec (now1 now2 : Timestamp) (pid : String)
    (st : ConfigurationState) (s : Store) :
    ((∀ p ∈ loadProfiles s, p.id ≠ pid) →
      switchProfile now1 now2 pid st s =
        (Except.error ("Profile with id " ++ pid ++ " not found"), s)) ∧
    (∀ target, (loadProfiles s).find? (fun p => p.id = pid) = some target →
      ∀ cp, st.currentProfile = some cp →
        (switchProfile now1 now2 pid st s).2.log =
          s.log ++ [StoreEvent.setConfig (stamp now1 cp),
            StoreEvent.setConfig (stamp now2 target)] ∧
        (switchProfile now1 now2 pid st s).2.config =
          Slot.stored (stamp now2 target) ∧
        ∃ st2, (switchProfile now1 now2 pid st s).1 = Except.ok st2 ∧
          st2.currentProfile = some target) := by
  constructor
  · intro h
    have hfind : (loadProfiles s).find? (fun p => p.id = pid) = none := by
      rw [List.find?_eq_none]
      intro p hp
      simpa using h p hp
    simp [switchProfile, hfind]
  · intro target htarget cp hcp
    refine ⟨?_, ?_, ?_⟩
    · simp only [switchProfile, htarget, hcp]
      simp [saveCurrentProfile]
    · simp only [switchProfile, htarget, hcp]
      rfl
    · refine ⟨configurationReducer now2 st
        (ConfigurationAction.switchProfileSuccess target), ?_, rfl⟩
      simp only [switchProfile, htarget, hcp]

/-- Witness for C4 at concrete data: switching from pA to pB records the
two pointer writes in order (outgoing pA stamped first, target pB
second). -/
theorem switchProfile_spec_witness :
    (switchProfile 4 5 "b" sampleState sampleStore).2.log =
      [StoreEvent.setConfig (stamp 4 pA), StoreEvent.setConfig (stamp 5 pB)] ∧
    (switchProfile 4 5 "b" sampleState sampleStore).2.config =
      Slot.stored (stamp 5 pB) := by
  obtain ⟨h1, h2, _⟩ :=
    (switchProfile_spec 4 5 "b" sampleState sampleStore).2 pB (by decide) pA
      (by decide)
  exact ⟨by rw [h1]; rfl, h2⟩

end NFlow
